import Mathlib

/-!
# Cost Metering & Budget Enforcement Engine — verification

Shallow embedding of the cost-tracking core of the agentguard TypeScript
SDK (`src/cost/CostTracker.ts`, `src/cost/BudgetManager.ts`,
`src/cost/CostStorage.ts`, `src/cost/pricing.ts`, `src/cost/types.ts`).

Modelling conventions:
* TypeScript `number` is modelled as `ℚ` (exact arithmetic; floating-point
  rounding is out of scope, the claims under study are about control flow,
  conditional structure and exact identities the code computes).
* ISO timestamp strings are modelled as `Int` milliseconds since the epoch;
  `Date` comparisons in the source compare the underlying epoch value.
  Local-time calendar floors (`setHours(0,0,0,0)` …) are modelled as their
  UTC counterparts (timezone offset 0).
* JavaScript `Map` is modelled as an insertion-ordered association list
  (`Map.set` replaces in place when the key exists, else appends, matching
  JS semantics); `Map.values()` is the list of values in that order.
* Pricing catalogs (`MODEL_PRICING`, `customPricing`) are passed as explicit
  association lists instead of module-level/instance globals.
* Human-readable strings built only for display (alert `message`) and the
  free-form `metadata` record are not modelled; no claim depends on them.
-/

namespace AgentGuard

/-- `ModelProvider` from `types.ts`. -/
inductive ModelProvider where
  | openai | anthropic | azureOpenai | google | cohere | custom
deriving DecidableEq, Repr

/-- `ModelPricing` from `types.ts`: per-1K token prices for one model. -/
structure ModelPricing where
  model : String
  provider : ModelProvider
  inputCostPer1K : ℚ
  outputCostPer1K : ℚ
  imageCost : Option ℚ := none
  audioCostPerSecond : Option ℚ := none
  lastUpdated : String := ""
deriving DecidableEq, Repr

/-- `TokenUsage` from `types.ts`. -/
structure TokenUsage where
  inputTokens : ℚ
  outputTokens : ℚ
  totalTokens : ℚ
  images : Option ℚ := none
  audioDuration : Option ℚ := none
deriving DecidableEq, Repr

/-- The `breakdown` field shared by `CostEstimate` and `CostRecord`:
`imageCost` / `audioCost` are present only when the spread conditions
`imageCost > 0 && { imageCost }` fire in the source. -/
structure CostBreakdown where
  inputCost : ℚ
  outputCost : ℚ
  imageCost : Option ℚ := none
  audioCost : Option ℚ := none
deriving DecidableEq, Repr

/-- `CostEstimate` from `types.ts`. -/
structure CostEstimate where
  estimatedCost : ℚ
  model : String
  provider : ModelProvider
  estimatedTokens : TokenUsage
  breakdown : CostBreakdown
  timestamp : Int
deriving DecidableEq, Repr

/-- `CostRecord` from `types.ts` (ids allocated by `generateId` are
modelled as naturals; `metadata` is not modelled). -/
structure CostRecord where
  id : Nat
  requestId : String
  agentId : String
  model : String
  provider : ModelProvider
  actualTokens : TokenUsage
  actualCost : ℚ
  breakdown : CostBreakdown
  timestamp : Int
deriving DecidableEq, Repr

/-- Modelled from the spec: `generateId` lives in `src/cost/utils.ts`,
which is not part of the provided sources. The spec (§4.2) requires that
every allocation yields a fresh unique id ("`finalize` always allocates a
fresh unique id even if all other fields are identical across calls"), so
id allocation is modelled as a monotone counter: the allocated id is the
current counter value and the counter advances. -/
def generateId (ctr : Nat) : Nat × Nat := (ctr, ctr + 1)

/-- `getModelPricing` from `pricing.ts`, with the `MODEL_PRICING` record
passed explicitly as an insertion-ordered association list. Resolution:
(1) exact key match; (2) case-insensitive match against the trimmed,
lowercased query; (3) prefix match in either direction, filtered by
provider when one is supplied. -/
def getModelPricing (catalog : List (String × ModelPricing)) (model : String)
    (provider : Option ModelProvider) : Option ModelPricing :=
  match catalog.find? (fun e => e.1 = model) with
  | some e => some e.2
  | none =>
    let normalizedModel := model.toLower.trim
    match catalog.find? (fun e => e.1.toLower = normalizedModel) with
    | some e => some e.2
    | none =>
      match catalog.find? (fun e =>
          (normalizedModel.startsWith e.1.toLower ∨ e.1.toLower.startsWith normalizedModel)
          ∧ (provider = none ∨ provider = some e.2.provider)) with
      | some e => some e.2
      | none => none

/-- `CostTrackerConfig` from `types.ts` (the `customPricing` map is carried
separately on the tracker state, as in the class). -/
structure CostTrackerConfig where
  enabled : Bool
  persistRecords : Bool
  enableBudgets : Bool
  enableAlerts : Bool
  defaultProvider : Option ModelProvider := none
deriving DecidableEq, Repr

/-- The state of a `CostTracker` instance: its configuration and the
`customPricing` map. -/
structure CostTracker where
  config : CostTrackerConfig
  customPricing : List (String × ModelPricing) := []
deriving DecidableEq, Repr

/-- Pricing resolution inside `estimateCost`/`calculateActualCost`:
`this.customPricing.get(model) || getModelPricing(model, provider)`. -/
def CostTracker.resolvePricing (t : CostTracker) (catalog : List (String × ModelPricing))
    (model : String) (provider : Option ModelProvider) : Option ModelPricing :=
  match t.customPricing.find? (fun e => e.1 = model) with
  | some e => some e.2
  | none => getModelPricing catalog model provider

/-- The JS truthiness conditional `a && b ? a * b : 0` used for the image
and audio components: zero when either operand is absent or zero. -/
def auxCost (a b : Option ℚ) : ℚ :=
  match a, b with
  | some x, some y => if x = 0 ∨ y = 0 then 0 else x * y
  | _, _ => 0

/-- `createZeroCostEstimate` from `CostTracker.ts`. -/
def createZeroCostEstimate (model : String) (provider : ModelProvider)
    (estimatedTokens : TokenUsage) (now : Int) : CostEstimate :=
  { estimatedCost := 0
    model := model
    provider := provider
    estimatedTokens := estimatedTokens
    breakdown := { inputCost := 0, outputCost := 0 }
    timestamp := now }

/-- `estimateCost` from `CostTracker.ts`. -/
def estimateCost (t : CostTracker) (catalog : List (String × ModelPricing))
    (model : String) (estimatedTokens : TokenUsage)
    (provider : Option ModelProvider) (now : Int) : CostEstimate :=
  if t.config.enabled = false then
    createZeroCostEstimate model (provider.getD .openai) estimatedTokens now
  else
    match t.resolvePricing catalog model provider with
    | none => createZeroCostEstimate model (provider.getD .custom) estimatedTokens now
    | some pricing =>
      let inputCost := estimatedTokens.inputTokens / 1000 * pricing.inputCostPer1K
      let outputCost := estimatedTokens.outputTokens / 1000 * pricing.outputCostPer1K
      let imageCost := auxCost estimatedTokens.images pricing.imageCost
      let audioCost := auxCost estimatedTokens.audioDuration pricing.audioCostPerSecond
      let estimatedCost := inputCost + outputCost + imageCost + audioCost
      { estimatedCost := estimatedCost
        model := pricing.model
        provider := pricing.provider
        estimatedTokens := estimatedTokens
        breakdown :=
          { inputCost := inputCost
            outputCost := outputCost
            imageCost := if imageCost > 0 then some imageCost else none
            audioCost := if audioCost > 0 then some audioCost else none }
        timestamp := now }

/-- `createZeroCostRecord` from `CostTracker.ts` (allocates an id). -/
def createZeroCostRecord (requestId agentId model : String)
    (provider : ModelProvider) (actualTokens : TokenUsage) (now : Int)
    (ctr : Nat) : CostRecord × Nat :=
  let (id, ctr') := generateId ctr
  ({ id := id
     requestId := requestId
     agentId := agentId
     model := model
     provider := provider
     actualTokens := actualTokens
     actualCost := 0
     breakdown := { inputCost := 0, outputCost := 0 }
     timestamp := now }, ctr')

/-- `calculateActualCost` from `CostTracker.ts`. -/
def calculateActualCost (t : CostTracker) (catalog : List (String × ModelPricing))
    (requestId agentId model : String) (actualTokens : TokenUsage)
    (provider : Option ModelProvider) (now : Int) (ctr : Nat) : CostRecord × Nat :=
  if t.config.enabled = false then
    createZeroCostRecord requestId agentId model (provider.getD .openai) actualTokens now ctr
  else
    match t.resolvePricing catalog model provider with
    | none => createZeroCostRecord requestId agentId model (provider.getD .custom) actualTokens now ctr
    | some pricing =>
      let inputCost := actualTokens.inputTokens / 1000 * pricing.inputCostPer1K
      let outputCost := actualTokens.outputTokens / 1000 * pricing.outputCostPer1K
      let imageCost := auxCost actualTokens.images pricing.imageCost
      let audioCost := auxCost actualTokens.audioDuration pricing.audioCostPerSecond
      let actualCost := inputCost + outputCost + imageCost + audioCost
      let (id, ctr') := generateId ctr
      ({ id := id
         requestId := requestId
         agentId := agentId
         model := pricing.model
         provider := pricing.provider
         actualTokens := actualTokens
         actualCost := actualCost
         breakdown :=
           { inputCost := inputCost
             outputCost := outputCost
             imageCost := if imageCost > 0 then some imageCost else none
             audioCost := if audioCost > 0 then some audioCost else none }
         timestamp := now }, ctr')

/-! ## Usage ledger: `InMemoryCostStorage` from `CostStorage.ts` -/

/-- The `records` map of `InMemoryCostStorage`, keyed by record id. -/
structure InMemoryCostStorage where
  records : List (Nat × CostRecord) := []
deriving DecidableEq, Repr

/-- JS `Map.set`: replace in place when the key is present, append otherwise. -/
def mapSet (k : Nat) (v : CostRecord) (m : List (Nat × CostRecord)) :
    List (Nat × CostRecord) :=
  if m.any (fun e => e.1 = k) then
    m.map (fun e => if e.1 = k then (k, v) else e)
  else m ++ [(k, v)]

/-- `store` from `CostStorage.ts`: `this.records.set(record.id, record)`. -/
def InMemoryCostStorage.store (s : InMemoryCostStorage) (r : CostRecord) :
    InMemoryCostStorage :=
  { records := mapSet r.id r s.records }

/-- `Array.from(this.records.values())`. -/
def InMemoryCostStorage.values (s : InMemoryCostStorage) : List CostRecord :=
  s.records.map (fun e => e.2)

/-- `getByDateRange` from `CostStorage.ts`: records with
`startDate ≤ timestamp ≤ endDate` (both ends inclusive). -/
def InMemoryCostStorage.getByDateRange (s : InMemoryCostStorage)
    (startDate endDate : Int) : List CostRecord :=
  s.values.filter (fun r => startDate ≤ r.timestamp ∧ r.timestamp ≤ endDate)

/-- `CostSummary` from `types.ts` (the by-model/provider/agent breakdown
records are modelled as total functions from the key). -/
structure CostSummary where
  totalCost : ℚ
  totalRequests : Nat
  averageCostPerRequest : ℚ
  byModel : String → ℚ
  byProvider : ModelProvider → ℚ
  byAgent : String → ℚ
  periodStart : Int
  periodEnd : Int
  totalTokensInput : ℚ
  totalTokensOutput : ℚ
  totalTokensTotal : ℚ

/-- The `(acc[key] || 0) + cost` accumulation loops of `getSummary`. -/
def accumulateBy {α : Type} [DecidableEq α] (key : CostRecord → α)
    (records : List CostRecord) : α → ℚ :=
  records.foldl (fun acc r => Function.update acc (key r) (acc (key r) + r.actualCost))
    (fun _ => 0)

/-- `getSummary` from `CostStorage.ts`. -/
def InMemoryCostStorage.getSummary (s : InMemoryCostStorage)
    (startDate endDate : Int) (agentId : Option String) : CostSummary :=
  let records₀ := s.getByDateRange startDate endDate
  let records := match agentId with
    | some a => records₀.filter (fun r => r.agentId = a)
    | none => records₀
  let totalCost : ℚ := (records.map (fun r => r.actualCost)).sum
  let totalRequests : Nat := records.length
  let averageCostPerRequest : ℚ :=
    if totalRequests > 0 then totalCost / (totalRequests : ℚ) else 0
  { totalCost := totalCost
    totalRequests := totalRequests
    averageCostPerRequest := averageCostPerRequest
    byModel := accumulateBy (fun r => r.model) records
    byProvider := accumulateBy (fun r => r.provider) records
    byAgent := accumulateBy (fun r => r.agentId) records
    periodStart := startDate
    periodEnd := endDate
    totalTokensInput := (records.map (fun r => r.actualTokens.inputTokens)).sum
    totalTokensOutput := (records.map (fun r => r.actualTokens.outputTokens)).sum
    totalTokensTotal := (records.map (fun r => r.actualTokens.totalTokens)).sum }

/-- `deleteOlderThan` from `CostStorage.ts`: drops records with timestamp
strictly before the cutoff and returns how many were removed. -/
def InMemoryCostStorage.deleteOlderThan (s : InMemoryCostStorage)
    (beforeDate : Int) : InMemoryCostStorage × Nat :=
  let kept := s.records.filter (fun e => ¬ e.2.timestamp < beforeDate)
  ({ records := kept }, s.records.length - kept.length)

/-! ## Budget enforcer: `BudgetManager.ts` -/

/-- Budget recurrence period. -/
inductive Period where
  | hourly | daily | weekly | monthly | total
deriving DecidableEq, Repr

/-- Budget enforcement action. -/
inductive BudgetAction where
  | alert | block | throttle
deriving DecidableEq, Repr

/-- Scope type of a budget. -/
inductive ScopeType where
  | agent | project | organization
deriving DecidableEq, Repr

/-- The optional `scope` field of a budget. -/
structure BudgetScope where
  type : ScopeType
  id : String
deriving DecidableEq, Repr

/-- `BudgetConfig` from `types.ts` (ids as naturals, timestamps as epoch ms). -/
structure BudgetConfig where
  id : Nat
  name : String
  limit : ℚ
  period : Period
  alertThresholds : List ℚ
  action : BudgetAction
  scope : Option BudgetScope
  enabled : Bool
  createdAt : Int
  updatedAt : Int
deriving DecidableEq, Repr

/-- The `Omit<BudgetConfig, 'id' | 'createdAt' | 'updatedAt'>` input of
`createBudget`. -/
structure BudgetInput where
  name : String
  limit : ℚ
  period : Period
  alertThresholds : List ℚ
  action : BudgetAction
  scope : Option BudgetScope
  enabled : Bool
deriving DecidableEq, Repr

/-- `CostAlert` from `types.ts` (the display-only `message` string is not
modelled). -/
structure CostAlert where
  id : Nat
  budgetId : Nat
  threshold : ℚ
  currentSpending : ℚ
  limit : ℚ
  severity : String
  timestamp : Int
  acknowledged : Bool
deriving DecidableEq, Repr

/-- `BudgetStatus` from `types.ts`. -/
structure BudgetStatus where
  budget : BudgetConfig
  currentSpending : ℚ
  remaining : ℚ
  percentageUsed : ℚ
  isExceeded : Bool
  activeAlerts : List ℚ
  periodStart : Int
  periodEnd : Int
  lastUpdated : Int
deriving DecidableEq, Repr

/-- The mutable state of a `BudgetManager` instance: the budget map
(insertion-ordered values), the per-budget alert lists, and the id counter
feeding `generateId`. -/
structure ManagerState where
  budgets : List BudgetConfig := []
  alerts : Nat → List CostAlert := fun _ => []
  nextId : Nat := 0

/-- Milliseconds per hour. -/
def msPerHour : Int := 3600000

/-- Milliseconds per day. -/
def msPerDay : Int := 86400000

/-- Proleptic-Gregorian civil date of an epoch day count
(days-to-civil conversion used to model `Date` month arithmetic). -/
def civilFromDays (z₀ : Int) : Int × Int × Int :=
  let z := z₀ + 719468
  let era := z.ediv 146097
  let doe := z.emod 146097
  let yoe := (doe - doe.ediv 1460 + doe.ediv 36524 - doe.ediv 146096).ediv 365
  let doy := doe - (365 * yoe + yoe.ediv 4 - yoe.ediv 100)
  let mp := (5 * doy + 2).ediv 153
  let d := doy - (153 * mp + 2).ediv 5 + 1
  let m := mp + (if mp < 10 then 3 else -9)
  (yoe + era * 400 + (if m ≤ 2 then 1 else 0), m, d)

/-- Epoch day count of a proleptic-Gregorian civil date. -/
def daysFromCivil (y₀ m d : Int) : Int :=
  let y := y₀ - (if m ≤ 2 then 1 else 0)
  let era := y.ediv 400
  let yoe := y - era * 400
  let doy := (153 * (m + (if m > 2 then -3 else 9)) + 2).ediv 5 + d - 1
  let doe := yoe * 365 + yoe.ediv 4 - yoe.ediv 100 + doy
  era * 146097 + doe - 719468

/-- `getPeriodDates` from `BudgetManager.ts`, at instant `now` (epoch ms,
calendar floors taken in UTC; `Date.getDay()` of the epoch is Thursday = 4;
weeks start on Sunday as in `now.getDate() - now.getDay()`). -/
def getPeriodDates (period : Period) (now : Int) : Int × Int :=
  match period with
  | .hourly => (now - now.emod msPerHour, now)
  | .daily => (now - now.emod msPerDay, now)
  | .weekly =>
    let dayFloor := now - now.emod msPerDay
    let dayOfWeek := (now.ediv msPerDay + 4).emod 7
    (dayFloor - dayOfWeek * msPerDay, now)
  | .monthly =>
    let (y, m, _) := civilFromDays (now.ediv msPerDay)
    (daysFromCivil y m 1 * msPerDay, now)
  | .total => (0, now)

/-- The body of `getBudgetStatus` from `BudgetManager.ts` once the budget
is resolved: compute the current period window, sum the matching ledger
records (filtered to the budget's agent scope when one is set), and derive
the percentage / remaining / exceeded / active-threshold fields. -/
def computeBudgetStatus (storage : InMemoryCostStorage) (now : Int)
    (budget : BudgetConfig) : BudgetStatus :=
  let (start, stop) := getPeriodDates budget.period now
  let records₀ := storage.getByDateRange start stop
  let records : List CostRecord := match budget.scope with
    | some scope =>
      if scope.type = ScopeType.agent then records₀.filter (fun r => r.agentId = scope.id)
      else records₀
    | none => records₀
  let currentSpending := (records.map (fun r => r.actualCost)).sum
  let remaining := max 0 (budget.limit - currentSpending)
  let percentageUsed := currentSpending / budget.limit * 100
  { budget := budget
    currentSpending := currentSpending
    remaining := remaining
    percentageUsed := percentageUsed
    isExceeded := decide (currentSpending > budget.limit)
    activeAlerts := budget.alertThresholds.filter (fun t => percentageUsed ≥ t)
    periodStart := start
    periodEnd := stop
    lastUpdated := now }

/-- `getBudgetStatus` from `BudgetManager.ts`: resolve the budget by id,
then compute its status from the ledger. -/
def getBudgetStatus (st : ManagerState) (storage : InMemoryCostStorage)
    (now : Int) (budgetId : Nat) : Option BudgetStatus :=
  match st.budgets.find? (fun b => b.id = budgetId) with
  | none => none
  | some budget => some (computeBudgetStatus storage now budget)

/-- `createAlert` from `BudgetManager.ts` (allocates an id; the
human-readable message is not modelled). -/
def createAlert (budget : BudgetConfig) (threshold currentSpending : ℚ)
    (now : Int) (ctr : Nat) : CostAlert × Nat :=
  let (id, ctr') := generateId ctr
  ({ id := id
     budgetId := budget.id
     threshold := threshold
     currentSpending := currentSpending
     limit := budget.limit
     severity :=
       if threshold ≥ 100 then "critical"
       else if threshold ≥ 90 then "warning"
       else "info"
     timestamp := now
     acknowledged := false }, ctr')

/-- `addAlert` from `BudgetManager.ts`: push onto the budget's alert list. -/
def addAlert (st : ManagerState) (budgetId : Nat) (alert : CostAlert) : ManagerState :=
  { st with alerts := Function.update st.alerts budgetId (st.alerts budgetId ++ [alert]) }

/-- `getAlerts` from `BudgetManager.ts`: `this.alerts.get(budgetId) || []`. -/
def getAlerts (st : ManagerState) (budgetId : Nat) : List CostAlert :=
  st.alerts budgetId

/-- `getRelevantBudgets` from `BudgetManager.ts`: enabled budgets that are
unscoped or agent-scoped to the given agent (project/organization scopes
are never matched — the corresponding checks are `TODO` in the source). -/
def getRelevantBudgets (st : ManagerState) (agentId : String) : List BudgetConfig :=
  st.budgets.filter (fun b =>
    if b.enabled = false then false
    else match b.scope with
      | none => true
      | some scope => scope.type = .agent ∧ scope.id = agentId)

/-- `createBudget` from `BudgetManager.ts`: assign an id and timestamps,
store the budget, initialise its alert list. No validation is performed. -/
def createBudget (st : ManagerState) (now : Int) (input : BudgetInput) :
    BudgetConfig × ManagerState :=
  let (id, ctr') := generateId st.nextId
  let budget : BudgetConfig :=
    { id := id
      name := input.name
      limit := input.limit
      period := input.period
      alertThresholds := input.alertThresholds
      action := input.action
      scope := input.scope
      enabled := input.enabled
      createdAt := now
      updatedAt := now }
  (budget,
   { budgets := st.budgets ++ [budget]
     alerts := Function.update st.alerts id []
     nextId := ctr' })

/-- `getBudget` from `BudgetManager.ts`. -/
def getBudget (st : ManagerState) (id : Nat) : Option BudgetConfig :=
  st.budgets.find? (fun b => b.id = id)

/-- `BudgetEnforcementResult` from `BudgetManager.ts`. -/
structure BudgetEnforcementResult where
  allowed : Bool
  blockedBy : Option BudgetConfig
  alerts : List CostAlert
  status : Option BudgetStatus
deriving DecidableEq, Repr

/-- The inner `for (const threshold of budget.alertThresholds)` loop of
`checkBudget`: emit an alert for every threshold the projected percentage
reaches that the current percentage is still below (no lookup of existing
alerts happens on this path). Returns the updated state and the alert
accumulator. -/
def checkThresholds (budget : BudgetConfig) (pctUsed projPct projectedSpending : ℚ)
    (now : Int) :
    List ℚ → ManagerState → List CostAlert → ManagerState × List CostAlert
  | [], st, acc => (st, acc)
  | t :: rest, st, acc =>
    if projPct ≥ t ∧ pctUsed < t then
      let (alert, ctr') := createAlert budget t projectedSpending now st.nextId
      let st' := addAlert { st with nextId := ctr' } budget.id alert
      checkThresholds budget pctUsed projPct projectedSpending now rest st' (acc ++ [alert])
    else
      checkThresholds budget pctUsed projPct projectedSpending now rest st acc

/-- The `for (const budget of relevantBudgets)` loop of `checkBudget`:
per budget, compute status, run the threshold loop, then stop with the
budget as blocker when the projected spend exceeds the limit and the
action is `block`. -/
def checkBudgetLoop (storage : InMemoryCostStorage) (now : Int) (estimatedCost : ℚ) :
    List BudgetConfig → ManagerState → List CostAlert →
      Option BudgetConfig × List CostAlert × ManagerState
  | [], st, acc => (none, acc, st)
  | budget :: rest, st, acc =>
    if budget.enabled = false then
      checkBudgetLoop storage now estimatedCost rest st acc
    else
      match getBudgetStatus st storage now budget.id with
      | none => checkBudgetLoop storage now estimatedCost rest st acc
      | some status =>
        let projectedSpending := status.currentSpending + estimatedCost
        let projectedPercentage := projectedSpending / budget.limit * 100
        let (st', acc') :=
          checkThresholds budget status.percentageUsed projectedPercentage
            projectedSpending now budget.alertThresholds st acc
        if projectedSpending > budget.limit ∧ budget.action = BudgetAction.block then
          (some budget, acc', st')
        else
          checkBudgetLoop storage now estimatedCost rest st' acc'

/-- `checkBudget` from `BudgetManager.ts`. -/
def checkBudget (st : ManagerState) (storage : InMemoryCostStorage) (now : Int)
    (agentId : String) (estimatedCost : ℚ) : BudgetEnforcementResult × ManagerState :=
  let relevantBudgets := getRelevantBudgets st agentId
  let (blockedBy, alerts, st') := checkBudgetLoop storage now estimatedCost relevantBudgets st []
  ({ allowed := blockedBy.isNone
     blockedBy := blockedBy
     alerts := alerts
     status := match blockedBy with
       | some b => getBudgetStatus st' storage now b.id
       | none => none }, st')

/-- The inner threshold loop of `recordCost`: emit an alert for every
reached threshold that has no alert yet in the snapshot `existing` of the
budget's already-fired thresholds. -/
def recordThresholds (budget : BudgetConfig) (pctUsed currentSpending : ℚ)
    (existing : List ℚ) (now : Int) : List ℚ → ManagerState → ManagerState
  | [], st => st
  | t :: rest, st =>
    if pctUsed ≥ t ∧ t ∉ existing then
      let (alert, ctr') := createAlert budget t currentSpending now st.nextId
      recordThresholds budget pctUsed currentSpending existing now rest
        (addAlert { st with nextId := ctr' } budget.id alert)
    else
      recordThresholds budget pctUsed currentSpending existing now rest st

/-- The `for (const budget of relevantBudgets)` loop of `recordCost`. -/
def recordCostLoop (storage : InMemoryCostStorage) (now : Int) :
    List BudgetConfig → ManagerState → ManagerState
  | [], st => st
  | budget :: rest, st =>
    if budget.enabled = false then recordCostLoop storage now rest st
    else
      match getBudgetStatus st storage now budget.id with
      | none => recordCostLoop storage now rest st
      | some status =>
        let existingThresholds := (getAlerts st budget.id).map (fun a => a.threshold)
        let st' := recordThresholds budget status.percentageUsed status.currentSpending
          existingThresholds now budget.alertThresholds st
        recordCostLoop storage now rest st'

/-- `recordCost` from `BudgetManager.ts`. -/
def recordCost (st : ManagerState) (storage : InMemoryCostStorage) (now : Int)
    (record : CostRecord) : ManagerState :=
  recordCostLoop storage now (getRelevantBudgets st record.agentId) st

/-! ## Supporting lemmas -/

theorem auxCost_nonneg {a b : Option ℚ} (ha : 0 ≤ a.getD 0) (hb : 0 ≤ b.getD 0) :
    0 ≤ auxCost a b := by
  unfold auxCost
  match a, b with
  | none, _ => positivity
  | some x, none => positivity
  | some x, some y =>
    simp only [Option.getD_some] at ha hb
    by_cases h : x = 0 ∨ y = 0
    · simp [h]
    · simp only [h, if_false]
      exact mul_nonneg ha hb

theorem filter_swap {α : Type} (p q : α → Bool) (l : List α) :
    (l.filter p).filter q = (l.filter q).filter p := by
  induction l with
  | nil => rfl
  | cons a rest ih =>
    by_cases hp : p a <;> by_cases hq : q a <;>
      simp [List.filter_cons, hp, hq, ih]

theorem find?_eq_some_of_mem_nodup {budgets : List BudgetConfig} {b : BudgetConfig}
    (hmem : b ∈ budgets) (hnd : (budgets.map (fun x => x.id)).Nodup) :
    budgets.find? (fun x => x.id = b.id) = some b := by
  induction budgets with
  | nil => cases hmem
  | cons a rest ih =>
    simp only [List.map_cons, List.nodup_cons] at hnd
    rcases List.mem_cons.mp hmem with h | h
    · subst h
      simp [List.find?_cons_of_pos]
    · have hne : ¬ (a.id = b.id) := by
        intro he
        exact hnd.1 (he ▸ List.mem_map.mpr ⟨b, h, rfl⟩)
      rw [List.find?_cons_of_neg _ (by simpa using hne)]
      exact ih h hnd.2

theorem mem_getRelevantBudgets {st : ManagerState} {agentId : String} {b : BudgetConfig}
    (h : b ∈ getRelevantBudgets st agentId) :
    b ∈ st.budgets ∧ b.enabled = true ∧
      (b.scope = none ∨ ∃ s, b.scope = some s ∧ s.type = ScopeType.agent ∧ s.id = agentId) := by
  unfold getRelevantBudgets at h
  have h' := List.mem_filter.mp h
  refine ⟨h'.1, ?_, ?_⟩
  · by_contra hen
    have : b.enabled = false := by
      cases hb : b.enabled
      · rfl
      · exact absurd hb hen
    simp [this] at h'
  · have hen : b.enabled = true := by
      by_contra hen
      have : b.enabled = false := by
        cases hb : b.enabled
        · rfl
        · exact absurd hb hen
      simp [this] at h'
    cases hs : b.scope with
    | none => exact Or.inl rfl
    | some s =>
      refine Or.inr ⟨s, rfl, ?_⟩
      have := h'.2
      simp only [hen, Bool.true_eq_false, if_false, hs] at this
      simpa using this

theorem checkThresholds_budgets (budget : BudgetConfig) (pctUsed projPct projSpend : ℚ)
    (now : Int) (ts : List ℚ) (st : ManagerState) (acc : List CostAlert) :
    ((checkThresholds budget pctUsed projPct projSpend now ts st acc).1).budgets = st.budgets := by
  induction ts generalizing st acc with
  | nil => rfl
  | cons t rest ih =>
    unfold checkThresholds
    by_cases h : projPct ≥ t ∧ pctUsed < t
    · rw [if_pos h, ih]
      rfl
    · rw [if_neg h]
      exact ih st acc

theorem checkThresholds_alerts_of_ne (budget : BudgetConfig) (pctUsed projPct projSpend : ℚ)
    (now : Int) (ts : List ℚ) (st : ManagerState) (acc : List CostAlert) (i : Nat)
    (hne : i ≠ budget.id) :
    ((checkThresholds budget pctUsed projPct projSpend now ts st acc).1).alerts i =
      st.alerts i := by
  induction ts generalizing st acc with
  | nil => rfl
  | cons t rest ih =>
    unfold checkThresholds
    by_cases h : projPct ≥ t ∧ pctUsed < t
    · rw [if_pos h, ih]
      simp [addAlert, Function.update_noteq hne]
    · rw [if_neg h]
      exact ih st acc

theorem recordThresholds_budgets (budget : BudgetConfig) (pctUsed spending : ℚ)
    (existing : List ℚ) (now : Int) (ts : List ℚ) (st : ManagerState) :
    ((recordThresholds budget pctUsed spending existing now ts st)).budgets = st.budgets := by
  induction ts generalizing st with
  | nil => rfl
  | cons t rest ih =>
    unfold recordThresholds
    by_cases h : pctUsed ≥ t ∧ t ∉ existing
    · rw [if_pos h, ih]
      rfl
    · rw [if_neg h]
      exact ih st

theorem recordThresholds_alerts_of_ne (budget : BudgetConfig) (pctUsed spending : ℚ)
    (existing : List ℚ) (now : Int) (ts : List ℚ) (st : ManagerState) (i : Nat)
    (hne : i ≠ budget.id) :
    ((recordThresholds budget pctUsed spending existing now ts st)).alerts i = st.alerts i := by
  induction ts generalizing st with
  | nil => rfl
  | cons t rest ih =>
    unfold recordThresholds
    by_cases h : pctUsed ≥ t ∧ t ∉ existing
    · rw [if_pos h, ih]
      simp [addAlert, Function.update_noteq hne]
    · rw [if_neg h]
      exact ih st

theorem getBudgetStatus_congr {st₁ st₂ : ManagerState} (storage : InMemoryCostStorage)
    (now : Int) (i : Nat) (h : st₁.budgets = st₂.budgets) :
    getBudgetStatus st₁ storage now i = getBudgetStatus st₂ storage now i := by
  unfold getBudgetStatus
  rw [h]

theorem checkBudgetLoop_budgets (storage : InMemoryCostStorage) (now : Int) (cost : ℚ)
    (bs : List BudgetConfig) (st : ManagerState) (acc : List CostAlert) :
    ((checkBudgetLoop storage now cost bs st acc).2.2).budgets = st.budgets := by
  induction bs generalizing st acc with
  | nil => rfl
  | cons budget rest ih =>
    unfold checkBudgetLoop
    by_cases he : budget.enabled = false
    · rw [if_pos he]
      exact ih st acc
    · rw [if_neg he]
      cases hgs : getBudgetStatus st storage now budget.id with
      | none => exact ih st acc
      | some status =>
        simp only
        cases hct : checkThresholds budget status.percentageUsed
            ((status.currentSpending + cost) / budget.limit * 100)
            (status.currentSpending + cost) now budget.alertThresholds st acc with
        | mk st' acc' =>
          by_cases hb : status.currentSpending + cost > budget.limit ∧
              budget.action = BudgetAction.block
          · rw [if_pos hb]
            have := checkThresholds_budgets budget status.percentageUsed
              ((status.currentSpending + cost) / budget.limit * 100)
              (status.currentSpending + cost) now budget.alertThresholds st acc
            rw [hct] at this
            exact this
          · rw [if_neg hb]
            rw [ih st' acc']
            have := checkThresholds_budgets budget status.percentageUsed
              ((status.currentSpending + cost) / budget.limit * 100)
              (status.currentSpending + cost) now budget.alertThresholds st acc
            rw [hct] at this
            exact this

theorem checkBudgetLoop_alerts_of_ne (storage : InMemoryCostStorage) (now : Int) (cost : ℚ)
    (bs : List BudgetConfig) (st : ManagerState) (acc : List CostAlert) (i : Nat)
    (h : ∀ b ∈ bs, b.id ≠ i) :
    ((checkBudgetLoop storage now cost bs st acc).2.2).alerts i = st.alerts i := by
  induction bs generalizing st acc with
  | nil => rfl
  | cons budget rest ih =>
    have hbudget : budget.id ≠ i := h budget (List.mem_cons_self _ _)
    have hrest : ∀ b ∈ rest, b.id ≠ i := fun b hb => h b (List.mem_cons_of_mem _ hb)
    unfold checkBudgetLoop
    by_cases he : budget.enabled = false
    · rw [if_pos he]
      exact ih st acc hrest
    · rw [if_neg he]
      cases hgs : getBudgetStatus st storage now budget.id with
      | none => exact ih st acc hrest
      | some status =>
        simp only
        cases hct : checkThresholds budget status.percentageUsed
            ((status.currentSpending + cost) / budget.limit * 100)
            (status.currentSpending + cost) now budget.alertThresholds st acc with
        | mk st' acc' =>
          have halerts : st'.alerts i = st.alerts i := by
            have := checkThresholds_alerts_of_ne budget status.percentageUsed
              ((status.currentSpending + cost) / budget.limit * 100)
              (status.currentSpending + cost) now budget.alertThresholds st acc i
              (fun he' => hbudget he'.symm)
            rw [hct] at this
            exact this
          by_cases hb : status.currentSpending + cost > budget.limit ∧
              budget.action = BudgetAction.block
          · rw [if_pos hb]
            exact halerts
          · rw [if_neg hb]
            rw [ih st' acc' hrest]
            exact halerts

theorem checkBudgetLoop_blocker (storage : InMemoryCostStorage) (now : Int) (cost : ℚ)
    (bs : List BudgetConfig) (st : ManagerState) (acc : List CostAlert) (b : BudgetConfig)
    (h : (checkBudgetLoop storage now cost bs st acc).1 = some b) :
    b ∈ bs ∧ b.action = BudgetAction.block := by
  induction bs generalizing st acc with
  | nil => exact absurd h (by simp [checkBudgetLoop])
  | cons budget rest ih =>
    unfold checkBudgetLoop at h
    by_cases he : budget.enabled = false
    · rw [if_pos he] at h
      have := ih st acc h
      exact ⟨List.mem_cons_of_mem _ this.1, this.2⟩
    · rw [if_neg he] at h
      cases hgs : getBudgetStatus st storage now budget.id with
      | none =>
        rw [hgs] at h
        have := ih st acc h
        exact ⟨List.mem_cons_of_mem _ this.1, this.2⟩
      | some status =>
        rw [hgs] at h
        simp only at h
        cases hct : checkThresholds budget status.percentageUsed
            ((status.currentSpending + cost) / budget.limit * 100)
            (status.currentSpending + cost) now budget.alertThresholds st acc with
        | mk st' acc' =>
          rw [hct] at h
          by_cases hb : status.currentSpending + cost > budget.limit ∧
              budget.action = BudgetAction.block
          · rw [if_pos hb] at h
            have hbb : budget = b := by
              simpa using h
            exact ⟨hbb ▸ List.mem_cons_self _ _, hbb ▸ hb.2⟩
          · rw [if_neg hb] at h
            have := ih st' acc' h
            exact ⟨List.mem_cons_of_mem _ this.1, this.2⟩

theorem recordCostLoop_alerts_of_ne (storage : InMemoryCostStorage) (now : Int)
    (bs : List BudgetConfig) (st : ManagerState) (i : Nat)
    (h : ∀ b ∈ bs, b.id ≠ i) :
    ((recordCostLoop storage now bs st)).alerts i = st.alerts i := by
  induction bs generalizing st with
  | nil => rfl
  | cons budget rest ih =>
    have hbudget : budget.id ≠ i := h budget (List.mem_cons_self _ _)
    have hrest : ∀ b ∈ rest, b.id ≠ i := fun b hb => h b (List.mem_cons_of_mem _ hb)
    unfold recordCostLoop
    by_cases he : budget.enabled = false
    · rw [if_pos he]
      exact ih st hrest
    · rw [if_neg he]
      cases hgs : getBudgetStatus st storage now budget.id with
      | none => exact ih st hrest
      | some status =>
        simp only
        rw [ih _ hrest]
        exact recordThresholds_alerts_of_ne budget status.percentageUsed
          status.currentSpending _ now budget.alertThresholds st i
          (fun he' => hbudget he'.symm)

theorem checkBudget_proj (st : ManagerState) (storage : InMemoryCostStorage) (now : Int)
    (agentId : String) (cost : ℚ) :
    (checkBudget st storage now agentId cost).1.blockedBy =
      (checkBudgetLoop storage now cost (getRelevantBudgets st agentId) st []).1 ∧
    (checkBudget st storage now agentId cost).1.allowed =
      ((checkBudgetLoop storage now cost (getRelevantBudgets st agentId) st []).1).isNone ∧
    (checkBudget st storage now agentId cost).2 =
      (checkBudgetLoop storage now cost (getRelevantBudgets st agentId) st []).2.2 := by
  simp only [checkBudget]
  exact ⟨trivial, trivial, trivial⟩

/-! ## Claims about the cost calculator -/

/-- **C5.** For every model identifier with no resolvable price entry, and
likewise when metering is disabled, `estimateCost` returns a result whose
total cost is exactly 0 with all breakdown fields 0, and
`calculateActualCost` returns a record with actual cost 0 and an all-zero
breakdown. (Both functions are total in the embedding: no exception path
exists.) -/
theorem estimateCost_zero_when_unpriced_or_disabled
    (t : CostTracker) (catalog : List (String × ModelPricing))
    (requestId agentId model : String) (tokens : TokenUsage)
    (provider : Option ModelProvider) (now : Int) (ctr : Nat)
    (h : t.config.enabled = false ∨ t.resolvePricing catalog model provider = none) :
    (estimateCost t catalog model tokens provider now).estimatedCost = 0 ∧
    (estimateCost t catalog model tokens provider now).breakdown =
      { inputCost := 0, outputCost := 0 } ∧
    (calculateActualCost t catalog requestId agentId model tokens provider now ctr).1.actualCost = 0 ∧
    (calculateActualCost t catalog requestId agentId model tokens provider now ctr).1.breakdown =
      { inputCost := 0, outputCost := 0 } := by
  unfold estimateCost calculateActualCost
  rcases h with h | h
  · simp [h, createZeroCostEstimate, createZeroCostRecord, generateId]
  · cases he : t.config.enabled
    · simp [createZeroCostEstimate, createZeroCostRecord, generateId]
    · simp [he, h, createZeroCostEstimate, createZeroCostRecord, generateId]

/-- Closed witness for C5: an unknown model on an empty catalog resolves to
no pricing and yields the all-zero estimate and record. -/
theorem estimateCost_zero_when_unpriced_or_disabled_witness :
    (CostTracker.resolvePricing
        ⟨⟨true, true, true, true, none⟩, []⟩ [] "unknown-model" none = none) ∧
    (estimateCost ⟨⟨true, true, true, true, none⟩, []⟩ [] "unknown-model"
      ⟨100, 50, 150, none, none⟩ none 0).estimatedCost = 0 ∧
    (calculateActualCost ⟨⟨true, true, true, true, none⟩, []⟩ [] "req" "agent"
      "unknown-model" ⟨100, 50, 150, none, none⟩ none 0 0).1.actualCost = 0 := by
  refine ⟨rfl, ?_, ?_⟩
  · exact (estimateCost_zero_when_unpriced_or_disabled
      ⟨⟨true, true, true, true, none⟩, []⟩ [] "req" "agent" "unknown-model"
      ⟨100, 50, 150, none, none⟩ none 0 0 (Or.inr rfl)).1
  · exact (estimateCost_zero_when_unpriced_or_disabled
      ⟨⟨true, true, true, true, none⟩, []⟩ [] "req" "agent" "unknown-model"
      ⟨100, 50, 150, none, none⟩ none 0 0 (Or.inr rfl)).2.2.1

/-- **C6.** For every usage quantity and every resolvable price entry (all
quantities and prices non-negative, as the data model requires), the total
of the cost estimate equals the sum of its breakdown components, with zero
for absent fields, and the input/output components follow the per-1K
formula. -/
theorem estimateCost_total_eq_breakdown_sum
    (t : CostTracker) (catalog : List (String × ModelPricing))
    (model : String) (tokens : TokenUsage) (provider : Option ModelProvider)
    (now : Int) (pricing : ModelPricing)
    (henabled : t.config.enabled = true)
    (hpricing : t.resolvePricing catalog model provider = some pricing)
    (himg : 0 ≤ tokens.images.getD 0) (haud : 0 ≤ tokens.audioDuration.getD 0)
    (hpimg : 0 ≤ pricing.imageCost.getD 0)
    (hpaud : 0 ≤ pricing.audioCostPerSecond.getD 0) :
    (estimateCost t catalog model tokens provider now).estimatedCost =
      (estimateCost t catalog model tokens provider now).breakdown.inputCost +
      (estimateCost t catalog model tokens provider now).breakdown.outputCost +
      ((estimateCost t catalog model tokens provider now).breakdown.imageCost.getD 0) +
      ((estimateCost t catalog model tokens provider now).breakdown.audioCost.getD 0) ∧
    (estimateCost t catalog model tokens provider now).breakdown.inputCost =
      tokens.inputTokens / 1000 * pricing.inputCostPer1K ∧
    (estimateCost t catalog model tokens provider now).breakdown.outputCost =
      tokens.outputTokens / 1000 * pricing.outputCostPer1K := by
  have himage := auxCost_nonneg himg hpimg
  have haudio := auxCost_nonneg haud hpaud
  refine ⟨?_, ?_, ?_⟩ <;>
    unfold estimateCost <;>
      simp only [henabled, Bool.true_eq_false, if_false, hpricing] <;>
        by_cases h1 : auxCost tokens.images pricing.imageCost > 0 <;>
          by_cases h2 : auxCost tokens.audioDuration pricing.audioCostPerSecond > 0 <;>
            simp only [h1, h2, if_true, if_false, Option.getD_some, Option.getD_none] <;>
              nlinarith

/-- Closed witness for C6: GPT-4-class pricing $0.03/$0.06 per 1K tokens on
usage (1000 input, 500 output) yields a total of $0.06 = $0.03 + $0.03. -/
theorem estimateCost_total_eq_breakdown_sum_witness :
    (CostTracker.resolvePricing ⟨⟨true, true, true, true, none⟩, []⟩
        [("gpt-4", ⟨"gpt-4", .openai, 3/100, 6/100, none, none, "2026-01-31"⟩)]
        "gpt-4" none =
      some ⟨"gpt-4", .openai, 3/100, 6/100, none, none, "2026-01-31"⟩) ∧
    (estimateCost ⟨⟨true, true, true, true, none⟩, []⟩
        [("gpt-4", ⟨"gpt-4", .openai, 3/100, 6/100, none, none, "2026-01-31"⟩)]
        "gpt-4" ⟨1000, 500, 1500, none, none⟩ none 0).estimatedCost = 6/100 ∧
    (estimateCost ⟨⟨true, true, true, true, none⟩, []⟩
        [("gpt-4", ⟨"gpt-4", .openai, 3/100, 6/100, none, none, "2026-01-31"⟩)]
        "gpt-4" ⟨1000, 500, 1500, none, none⟩ none 0).estimatedCost =
      (estimateCost ⟨⟨true, true, true, true, none⟩, []⟩
        [("gpt-4", ⟨"gpt-4", .openai, 3/100, 6/100, none, none, "2026-01-31"⟩)]
        "gpt-4" ⟨1000, 500, 1500, none, none⟩ none 0).breakdown.inputCost +
      (estimateCost ⟨⟨true, true, true, true, none⟩, []⟩
        [("gpt-4", ⟨"gpt-4", .openai, 3/100, 6/100, none, none, "2026-01-31"⟩)]
        "gpt-4" ⟨1000, 500, 1500, none, none⟩ none 0).breakdown.outputCost +
      ((estimateCost ⟨⟨true, true, true, true, none⟩, []⟩
        [("gpt-4", ⟨"gpt-4", .openai, 3/100, 6/100, none, none, "2026-01-31"⟩)]
        "gpt-4" ⟨1000, 500, 1500, none, none⟩ none 0).breakdown.imageCost.getD 0) +
      ((estimateCost ⟨⟨true, true, true, true, none⟩, []⟩
        [("gpt-4", ⟨"gpt-4", .openai, 3/100, 6/100, none, none, "2026-01-31"⟩)]
        "gpt-4" ⟨1000, 500, 1500, none, none⟩ none 0).breakdown.audioCost.getD 0) := by
  refine ⟨rfl, by norm_num [estimateCost, CostTracker.resolvePricing, getModelPricing,
    auxCost, List.find?], ?_⟩
  exact (estimateCost_total_eq_breakdown_sum
    ⟨⟨true, true, true, true, none⟩, []⟩
    [("gpt-4", ⟨"gpt-4", .openai, 3/100, 6/100, none, none, "2026-01-31"⟩)]
    "gpt-4" ⟨1000, 500, 1500, none, none⟩ none 0
    ⟨"gpt-4", .openai, 3/100, 6/100, none, none, "2026-01-31"⟩
    rfl rfl (by decide) (by decide) (by decide) (by decide)).1

/-- **C7.** For identical (model, usage, provider) inputs,
`calculateActualCost` computes the same total and the same breakdown as
`estimateCost`; the record's id is the current counter value, the counter
advances, and an immediately repeated invocation yields a different id. -/
theorem calculateActualCost_matches_estimate_and_fresh_id
    (t : CostTracker) (catalog : List (String × ModelPricing))
    (requestId agentId model : String) (tokens : TokenUsage)
    (provider : Option ModelProvider) (now : Int) (ctr : Nat) :
    (calculateActualCost t catalog requestId agentId model tokens provider now ctr).1.actualCost =
      (estimateCost t catalog model tokens provider now).estimatedCost ∧
    (calculateActualCost t catalog requestId agentId model tokens provider now ctr).1.breakdown =
      (estimateCost t catalog model tokens provider now).breakdown ∧
    (calculateActualCost t catalog requestId agentId model tokens provider now ctr).1.id = ctr ∧
    (calculateActualCost t catalog requestId agentId model tokens provider now ctr).2 = ctr + 1 ∧
    (calculateActualCost t catalog requestId agentId model tokens provider now
        ((calculateActualCost t catalog requestId agentId model tokens provider now ctr).2)).1.id ≠
      (calculateActualCost t catalog requestId agentId model tokens provider now ctr).1.id := by
  unfold calculateActualCost estimateCost
  cases he : t.config.enabled
  · simp [createZeroCostRecord, createZeroCostEstimate, generateId]
  · simp only [he, Bool.true_eq_false, if_false]
    cases hp : t.resolvePricing catalog model provider
    · simp [createZeroCostRecord, createZeroCostEstimate, generateId]
    · simp [createZeroCostRecord, createZeroCostEstimate, generateId]

/-! ## Claims about the budget enforcer -/

/-- **C3.** `checkBudget` never returns `allowed = false` on account of a
budget whose action is `alert` or `throttle`: for every manager state,
ledger, scope id and projected additional cost, any blocking budget in the
result has action `block`, and the result is allowed exactly when no
blocking budget was found. -/
theorem checkBudget_never_blocked_by_alert_or_throttle
    (st : ManagerState) (storage : InMemoryCostStorage) (now : Int)
    (agentId : String) (cost : ℚ) :
    ((checkBudget st storage now agentId cost).1.blockedBy.all
      (fun b => b.action == BudgetAction.block)) = true ∧
    (checkBudget st storage now agentId cost).1.allowed =
      ((checkBudget st storage now agentId cost).1.blockedBy).isNone := by
  obtain ⟨h1, h2, h3⟩ := checkBudget_proj st storage now agentId cost
  refine ⟨?_, by rw [h2, h1]⟩
  rw [h1]
  cases hres : (checkBudgetLoop storage now cost (getRelevantBudgets st agentId) st []).1 with
  | none => rfl
  | some b =>
    have hact := (checkBudgetLoop_blocker storage now cost _ st [] b hres).2
    simp [Option.all, hact]

/-- **C10.** A budget scoped to a project or an organization is never
selected as relevant: it does not appear in `getRelevantBudgets` for any
agent id, it is never the blocking budget of `checkBudget`, and neither
`checkBudget` nor `recordCost` ever appends an alert to its alert list. -/
theorem project_org_scoped_budgets_inert
    (st : ManagerState) (storage : InMemoryCostStorage) (now : Int) (agentId : String)
    (cost : ℚ) (record : CostRecord) (b : BudgetConfig) (s : BudgetScope)
    (hmem : b ∈ st.budgets) (hscope : b.scope = some s)
    (htype : s.type = ScopeType.project ∨ s.type = ScopeType.organization)
    (hnd : (st.budgets.map (fun x => x.id)).Nodup) :
    b ∉ getRelevantBudgets st agentId ∧
    (checkBudget st storage now agentId cost).1.blockedBy ≠ some b ∧
    ((checkBudget st storage now agentId cost).2).alerts b.id = st.alerts b.id ∧
    (recordCost st storage now record).alerts b.id = st.alerts b.id := by
  have hagent : s.type ≠ ScopeType.agent := by
    rcases htype with h | h <;> simp [h]
  have hnotrel : ∀ aid : String, b ∉ getRelevantBudgets st aid := by
    intro aid h
    rcases (mem_getRelevantBudgets h).2.2 with hnone | ⟨s', hs', hty, _⟩
    · rw [hscope] at hnone
      cases hnone
    · rw [hscope] at hs'
      injection hs' with hss
      exact hagent (hss ▸ hty)
  have hids : ∀ aid : String, ∀ b' ∈ getRelevantBudgets st aid, b'.id ≠ b.id := by
    intro aid b' hb' heq
    have hb'mem : b' ∈ st.budgets := (mem_getRelevantBudgets hb').1
    have hbb : b' = b := List.inj_on_of_nodup_map hnd hb'mem hmem heq
    exact hnotrel aid (hbb ▸ hb')
  obtain ⟨h1, h2, h3⟩ := checkBudget_proj st storage now agentId cost
  refine ⟨hnotrel agentId, ?_, ?_, ?_⟩
  · intro h
    rw [h1] at h
    exact hnotrel agentId (checkBudgetLoop_blocker storage now cost _ st [] b h).1
  · rw [h3]
    exact checkBudgetLoop_alerts_of_ne storage now cost _ st [] b.id (hids agentId)
  · unfold recordCost
    exact recordCostLoop_alerts_of_ne storage now _ st b.id (hids record.agentId)

/-- Closed witness for C10: a project-scoped budget over its limit is not
relevant for agent `a1`, does not block, and collects no alert. -/
theorem project_org_scoped_budgets_inert_witness :
    (⟨0, "proj", 1, Period.total, [50], BudgetAction.block,
        some ⟨ScopeType.project, "p1"⟩, true, 0, 0⟩ : BudgetConfig) ∉
      getRelevantBudgets ⟨[⟨0, "proj", 1, Period.total, [50], BudgetAction.block,
        some ⟨ScopeType.project, "p1"⟩, true, 0, 0⟩], fun _ => [], 1⟩ "a1" ∧
    ((checkBudget ⟨[⟨0, "proj", 1, Period.total, [50], BudgetAction.block,
        some ⟨ScopeType.project, "p1"⟩, true, 0, 0⟩], fun _ => [], 1⟩
        ⟨[]⟩ 10 "a1" 100).2).alerts 0 = [] := by
  have h := project_org_scoped_budgets_inert
    ⟨[⟨0, "proj", 1, Period.total, [50], BudgetAction.block,
      some ⟨ScopeType.project, "p1"⟩, true, 0, 0⟩], fun _ => [], 1⟩
    ⟨[]⟩ 10 "a1" 100
    ⟨0, "r", "a1", "m", ModelProvider.openai, ⟨0, 0, 0, none, none⟩, 0,
      ⟨0, 0, none, none⟩, 0⟩
    ⟨0, "proj", 1, Period.total, [50], BudgetAction.block,
      some ⟨ScopeType.project, "p1"⟩, true, 0, 0⟩
    ⟨ScopeType.project, "p1"⟩
    (List.mem_singleton.mpr rfl) rfl (Or.inl rfl) (by simp)
  exact ⟨h.1, h.2.2.1⟩

/-- **C8.** For a budget scoped to agent `A`, `getBudgetStatus` is unchanged
by adding, removing or modifying usage records of other agents: two ledgers
whose `A`-filtered record lists agree yield the same status (in particular
the same `currentSpending`). -/
theorem getBudgetStatus_agent_scope_noninterference
    (st : ManagerState) (s1 s2 : InMemoryCostStorage) (now : Int) (bid : Nat)
    (b : BudgetConfig) (A : String)
    (hfind : st.budgets.find? (fun x => x.id = bid) = some b)
    (hscope : b.scope = some ⟨ScopeType.agent, A⟩)
    (hrec : s1.values.filter (fun r => r.agentId = A) =
      s2.values.filter (fun r => r.agentId = A)) :
    getBudgetStatus st s1 now bid = getBudgetStatus st s2 now bid := by
  have hrecords : ∀ a c : Int,
      (s1.getByDateRange a c).filter (fun r => r.agentId = A) =
        (s2.getByDateRange a c).filter (fun r => r.agentId = A) := by
    intro a c
    unfold InMemoryCostStorage.getByDateRange
    calc (s1.values.filter (fun r => a ≤ r.timestamp ∧ r.timestamp ≤ c)).filter
            (fun r => r.agentId = A)
        = (s1.values.filter (fun r => r.agentId = A)).filter
            (fun r => a ≤ r.timestamp ∧ r.timestamp ≤ c) := filter_swap _ _ _
      _ = (s2.values.filter (fun r => r.agentId = A)).filter
            (fun r => a ≤ r.timestamp ∧ r.timestamp ≤ c) := by rw [hrec]
      _ = (s2.values.filter (fun r => a ≤ r.timestamp ∧ r.timestamp ≤ c)).filter
            (fun r => r.agentId = A) := (filter_swap _ _ _).symm
  unfold getBudgetStatus
  rw [hfind]
  unfold computeBudgetStatus
  simp [hscope, hrecords]

/-- Closed witness for C8: two ledgers that agree on agent `a1` records but
differ in an `a2` record yield equal statuses for the `a1`-scoped budget. -/
theorem getBudgetStatus_agent_scope_noninterference_witness :
    getBudgetStatus
        ⟨[⟨0, "b", 1, Period.total, [50], BudgetAction.block,
            some ⟨ScopeType.agent, "a1"⟩, true, 0, 0⟩], fun _ => [], 1⟩
        ⟨[(7, ⟨7, "r1", "a1", "m", ModelProvider.openai, ⟨1, 1, 2, none, none⟩, 1,
            ⟨1, 0, none, none⟩, 3⟩)]⟩ 10 0 =
      getBudgetStatus
        ⟨[⟨0, "b", 1, Period.total, [50], BudgetAction.block,
            some ⟨ScopeType.agent, "a1"⟩, true, 0, 0⟩], fun _ => [], 1⟩
        ⟨[(7, ⟨7, "r1", "a1", "m", ModelProvider.openai, ⟨1, 1, 2, none, none⟩, 1,
            ⟨1, 0, none, none⟩, 3⟩),
          (8, ⟨8, "r2", "a2", "m", ModelProvider.openai, ⟨1, 1, 2, none, none⟩, 5,
            ⟨5, 0, none, none⟩, 4⟩)]⟩ 10 0 := by
  apply getBudgetStatus_agent_scope_noninterference
      (b := ⟨0, "b", 1, Period.total, [50], BudgetAction.block,
        some ⟨ScopeType.agent, "a1"⟩, true, 0, 0⟩) (A := "a1")
  · rfl
  · rfl
  · rfl

/-- **C9.** `getSummary(from, to)` aggregates exactly the records whose
stored timestamp lies in the inclusive range `[from, to]`; its average cost
per record is total cost over record count, and 0 when the count is 0. -/
theorem getSummary_range_and_average (s : InMemoryCostStorage) (a c : Int) :
    (s.getSummary a c none).totalCost =
      ((s.values.filter (fun r => a ≤ r.timestamp ∧ r.timestamp ≤ c)).map
        (fun r => r.actualCost)).sum ∧
    (s.getSummary a c none).totalRequests =
      (s.values.filter (fun r => a ≤ r.timestamp ∧ r.timestamp ≤ c)).length ∧
    ((s.getSummary a c none).totalRequests = 0 →
      (s.getSummary a c none).averageCostPerRequest = 0) ∧
    ((s.getSummary a c none).totalRequests ≠ 0 →
      (s.getSummary a c none).averageCostPerRequest =
        (s.getSummary a c none).totalCost /
          (((s.getSummary a c none).totalRequests : ℕ) : ℚ)) := by
  have havg : (s.getSummary a c none).averageCostPerRequest =
      if 0 < (s.getSummary a c none).totalRequests
      then (s.getSummary a c none).totalCost /
        (((s.getSummary a c none).totalRequests : ℕ) : ℚ)
      else 0 := rfl
  refine ⟨rfl, rfl, ?_, ?_⟩
  · intro h
    rw [havg, h]
    norm_num
  · intro h
    rw [havg, if_pos (Nat.pos_of_ne_zero h)]

/-- Closed witness for C9: a singleton ledger with one record at timestamp
5; the range `[20, 30]` excludes it and yields a zero average, and its
in-range totals follow the filter characterisation. -/
theorem getSummary_range_and_average_witness :
    ((InMemoryCostStorage.getSummary ⟨[(0, ⟨0, "r", "a1", "m", ModelProvider.openai,
        ⟨1, 1, 2, none, none⟩, 3, ⟨3, 0, none, none⟩, 5⟩)]⟩ 20 30 none).totalRequests = 0) ∧
    ((InMemoryCostStorage.getSummary ⟨[(0, ⟨0, "r", "a1", "m", ModelProvider.openai,
        ⟨1, 1, 2, none, none⟩, 3, ⟨3, 0, none, none⟩, 5⟩)]⟩ 20 30 none).averageCostPerRequest
      = 0) := by
  refine ⟨rfl, ?_⟩
  exact (getSummary_range_and_average ⟨[(0, ⟨0, "r", "a1", "m", ModelProvider.openai,
    ⟨1, 1, 2, none, none⟩, 3, ⟨3, 0, none, none⟩, 5⟩)]⟩ 20 30).2.2.1 rfl

/-- **C4 counterexample.** `createBudget` performs no validation: a
configuration with limit −1 and an empty alert-threshold list is accepted
and stored verbatim under the fresh id, contradicting the claim that such
configurations are rejected and never stored. -/
theorem createBudget_accepts_invalid_config_cex :
    ((createBudget ⟨[], fun _ => [], 0⟩ 0
        ⟨"invalid", -1, Period.total, [], BudgetAction.block, none, true⟩).1.limit = -1) ∧
    ((createBudget ⟨[], fun _ => [], 0⟩ 0
        ⟨"invalid", -1, Period.total, [], BudgetAction.block, none, true⟩).1.alertThresholds
      = []) ∧
    (getBudget (createBudget ⟨[], fun _ => [], 0⟩ 0
        ⟨"invalid", -1, Period.total, [], BudgetAction.block, none, true⟩).2 0 =
      some (createBudget ⟨[], fun _ => [], 0⟩ 0
        ⟨"invalid", -1, Period.total, [], BudgetAction.block, none, true⟩).1) :=
  ⟨rfl, rfl, rfl⟩

/-- **C4 amended.** `createBudget` performs no validation at all: every
configuration — including one with a non-positive limit or an empty
alert-threshold list — is stored unchanged (with a fresh id and
timestamps) and returned. -/
theorem createBudget_stores_any_config (st : ManagerState) (now : Int) (input : BudgetInput) :
    (createBudget st now input).1.limit = input.limit ∧
    (createBudget st now input).1.alertThresholds = input.alertThresholds ∧
    (createBudget st now input).1.name = input.name ∧
    (createBudget st now input).1.action = input.action ∧
    (createBudget st now input).1.scope = input.scope ∧
    (createBudget st now input).1.enabled = input.enabled ∧
    (createBudget st now input).2.budgets = st.budgets ++ [(createBudget st now input).1] :=
  ⟨rfl, rfl, rfl, rfl, rfl, rfl, rfl⟩

/-- The blocking condition of `checkBudget` for one budget, phrased against
the status the loop computes for it: the projected spend (current spend
plus the estimated additional cost) strictly exceeds the limit and the
budget's action is `block`. -/
def isBlocking (storage : InMemoryCostStorage) (now : Int) (cost : ℚ)
    (b : BudgetConfig) : Prop :=
  (computeBudgetStatus storage now b).currentSpending + cost > b.limit ∧
  b.action = BudgetAction.block

theorem checkBudgetLoop_stops_at_first_blocker (storage : InMemoryCostStorage) (now : Int)
    (cost : ℚ) (R1 : List BudgetConfig) (b : BudgetConfig) (R2 : List BudgetConfig) :
    ∀ (st : ManagerState) (acc : List CostAlert),
    (∀ b' ∈ R1, b'.enabled = true ∧
        st.budgets.find? (fun x => x.id = b'.id) = some b' ∧
        ¬ isBlocking storage now cost b') →
    (b.enabled = true ∧ st.budgets.find? (fun x => x.id = b.id) = some b ∧
        isBlocking storage now cost b) →
    checkBudgetLoop storage now cost (R1 ++ b :: R2) st acc =
      checkBudgetLoop storage now cost (R1 ++ [b]) st acc ∧
    (checkBudgetLoop storage now cost (R1 ++ b :: R2) st acc).1 = some b := by
  induction R1 with
  | nil =>
    intro st acc _ hb
    obtain ⟨hen, hfind, hblk⟩ := hb
    have hgs : getBudgetStatus st storage now b.id =
        some (computeBudgetStatus storage now b) := by
      unfold getBudgetStatus
      rw [hfind]
    have hen' : ¬ (b.enabled = false) := by simp [hen]
    unfold isBlocking at hblk
    simp only [List.nil_append]
    unfold checkBudgetLoop
    simp only [if_neg hen', hgs]
    cases hct : checkThresholds b (computeBudgetStatus storage now b).percentageUsed
        (((computeBudgetStatus storage now b).currentSpending + cost) / b.limit * 100)
        ((computeBudgetStatus storage now b).currentSpending + cost) now
        b.alertThresholds st acc with
    | mk st' acc' =>
      simp only [if_pos hblk]
      exact ⟨trivial, trivial⟩
  | cons a R1' ih =>
    intro st acc h1 hb
    obtain ⟨hena, hfinda, hnblk⟩ := h1 a (List.mem_cons_self _ _)
    have hgsa : getBudgetStatus st storage now a.id =
        some (computeBudgetStatus storage now a) := by
      unfold getBudgetStatus
      rw [hfinda]
    have hena' : ¬ (a.enabled = false) := by simp [hena]
    unfold isBlocking at hnblk
    simp only [List.cons_append]
    unfold checkBudgetLoop
    simp only [if_neg hena', hgsa]
    cases hct : checkThresholds a (computeBudgetStatus storage now a).percentageUsed
        (((computeBudgetStatus storage now a).currentSpending + cost) / a.limit * 100)
        ((computeBudgetStatus storage now a).currentSpending + cost) now
        a.alertThresholds st acc with
    | mk st2 acc2 =>
      simp only [if_neg hnblk]
      have hbud : st2.budgets = st.budgets := by
        have := checkThresholds_budgets a (computeBudgetStatus storage now a).percentageUsed
          (((computeBudgetStatus storage now a).currentSpending + cost) / a.limit * 100)
          ((computeBudgetStatus storage now a).currentSpending + cost) now
          a.alertThresholds st acc
        rw [hct] at this
        exact this
      refine ih st2 acc2 ?_ ?_
      · intro b' hb'
        obtain ⟨x, y, z⟩ := h1 b' (List.mem_cons_of_mem _ hb')
        exact ⟨x, by rw [hbud]; exact y, z⟩
      · exact ⟨hb.1, by rw [hbud]; exact hb.2.1, hb.2.2⟩

/-- **C2.** When some enabled matching budget's projected spend strictly
exceeds its limit and its action is `block`, `checkBudget` returns
`allowed = false` with `blockedBy` set to the first such budget in
insertion order, and no budget after it is evaluated: the whole run equals
the run on the prefix ending at that budget. -/
theorem checkBudget_first_block_wins
    (st : ManagerState) (storage : InMemoryCostStorage) (now : Int) (agentId : String)
    (cost : ℚ) (R1 : List BudgetConfig) (b : BudgetConfig) (R2 : List BudgetConfig)
    (hnd : (st.budgets.map (fun x => x.id)).Nodup)
    (hR : getRelevantBudgets st agentId = R1 ++ b :: R2)
    (hblk : isBlocking storage now cost b)
    (hbefore : ∀ b' ∈ R1, ¬ isBlocking storage now cost b') :
    (checkBudget st storage now agentId cost).1.allowed = false ∧
    (checkBudget st storage now agentId cost).1.blockedBy = some b ∧
    checkBudgetLoop storage now cost (getRelevantBudgets st agentId) st [] =
      checkBudgetLoop storage now cost (R1 ++ [b]) st [] := by
  have hmemb : b ∈ getRelevantBudgets st agentId := by
    rw [hR]
    exact List.mem_append.mpr (Or.inr (List.mem_cons_self _ _))
  have hb : b.enabled = true ∧ st.budgets.find? (fun x => x.id = b.id) = some b ∧
      isBlocking storage now cost b :=
    ⟨(mem_getRelevantBudgets hmemb).2.1,
     find?_eq_some_of_mem_nodup (mem_getRelevantBudgets hmemb).1 hnd, hblk⟩
  have h1 : ∀ b' ∈ R1, b'.enabled = true ∧
      st.budgets.find? (fun x => x.id = b'.id) = some b' ∧
      ¬ isBlocking storage now cost b' := by
    intro b' hb'
    have hmem' : b' ∈ getRelevantBudgets st agentId := by
      rw [hR]
      exact List.mem_append.mpr (Or.inl hb')
    exact ⟨(mem_getRelevantBudgets hmem').2.1,
      find?_eq_some_of_mem_nodup (mem_getRelevantBudgets hmem').1 hnd, hbefore b' hb'⟩
  obtain ⟨heq, hfirst⟩ :=
    checkBudgetLoop_stops_at_first_blocker storage now cost R1 b R2 st [] h1 hb
  obtain ⟨p1, p2, _⟩ := checkBudget_proj st storage now agentId cost
  refine ⟨?_, ?_, ?_⟩
  · rw [p2, hR, hfirst]
    rfl
  · rw [p1, hR, hfirst]
  · rw [hR]
    exact heq

/-- Closed witness for C2: with spend 2 against limit 1, an enabled
unscoped `block` budget placed first blocks the request and is reported as
the blocker. -/
theorem checkBudget_first_block_wins_witness :
    (checkBudget ⟨[⟨0, "blocker", 1, Period.total, [], BudgetAction.block, none, true, 0, 0⟩,
        ⟨1, "second", 1, Period.total, [], BudgetAction.alert, none, true, 0, 0⟩],
        fun _ => [], 2⟩
      ⟨[(5, ⟨5, "r", "a1", "m", ModelProvider.openai, ⟨1, 1, 2, none, none⟩, 2,
        ⟨2, 0, none, none⟩, 3⟩)]⟩ 10 "a1" 1).1.allowed = false ∧
    (checkBudget ⟨[⟨0, "blocker", 1, Period.total, [], BudgetAction.block, none, true, 0, 0⟩,
        ⟨1, "second", 1, Period.total, [], BudgetAction.alert, none, true, 0, 0⟩],
        fun _ => [], 2⟩
      ⟨[(5, ⟨5, "r", "a1", "m", ModelProvider.openai, ⟨1, 1, 2, none, none⟩, 2,
        ⟨2, 0, none, none⟩, 3⟩)]⟩ 10 "a1" 1).1.blockedBy =
      some ⟨0, "blocker", 1, Period.total, [], BudgetAction.block, none, true, 0, 0⟩ := by
  have h := checkBudget_first_block_wins
    ⟨[⟨0, "blocker", 1, Period.total, [], BudgetAction.block, none, true, 0, 0⟩,
      ⟨1, "second", 1, Period.total, [], BudgetAction.alert, none, true, 0, 0⟩],
      fun _ => [], 2⟩
    ⟨[(5, ⟨5, "r", "a1", "m", ModelProvider.openai, ⟨1, 1, 2, none, none⟩, 2,
      ⟨2, 0, none, none⟩, 3⟩)]⟩ 10 "a1" 1
    [] ⟨0, "blocker", 1, Period.total, [], BudgetAction.block, none, true, 0, 0⟩
    [⟨1, "second", 1, Period.total, [], BudgetAction.alert, none, true, 0, 0⟩]
    (by decide) rfl
    (by
      constructor
      · norm_num [isBlocking, computeBudgetStatus, getPeriodDates,
          InMemoryCostStorage.getByDateRange, InMemoryCostStorage.values]
      · rfl)
    (fun b' hb' => absurd hb' (List.not_mem_nil b'))
  exact ⟨h.1, h.2.1⟩

/-- **C1 counterexample.** The claimed at-most-one-alert-per-(budget,
threshold) invariant fails across `checkBudget` invocations: `checkBudget`
emits a threshold alert whenever the projected percentage would cross a
threshold the current percentage is below, without consulting the existing
alert set. Two successive `checkBudget` calls in the same accounting period
(limit 100, threshold 50, spend 0, estimated cost 60, empty ledger) leave
two alerts with threshold 50 for the same budget. -/
theorem checkBudget_duplicate_alert_cex :
    ((((checkBudget (checkBudget ⟨[⟨0, "b", 100, Period.total, [50], BudgetAction.alert,
          none, true, 0, 0⟩], fun _ => [], 1⟩ ⟨[]⟩ 10 "a1" 60).2
        ⟨[]⟩ 10 "a1" 60).2).alerts 0).map (fun al => al.threshold)) = [50, 50] := by
  norm_num [checkBudget, checkBudgetLoop, checkThresholds, getRelevantBudgets,
    getBudgetStatus, computeBudgetStatus, getPeriodDates, InMemoryCostStorage.getByDateRange,
    InMemoryCostStorage.values, createAlert, addAlert, generateId, List.find?,
    Function.update]

/-- The per-step invariant behind the amended C1: `recordThresholds` never
adds an alert for a threshold already present, so per-budget threshold
lists stay duplicate-free. -/
theorem recordThresholds_nodup (budget : BudgetConfig) (pctUsed spending : ℚ)
    (existing : List ℚ) (now : Int) (ts : List ℚ) (st : ManagerState)
    (hts : ts.Nodup)
    (hall : ∀ i, (((st.alerts i)).map (fun a => a.threshold)).Nodup)
    (hcur : ∀ t' ∈ (st.alerts budget.id).map (fun a => a.threshold),
      t' ∈ existing ∨ t' ∉ ts) :
    ∀ i, (((recordThresholds budget pctUsed spending existing now ts st).alerts i).map
      (fun a => a.threshold)).Nodup := by
  induction ts generalizing st with
  | nil => exact hall
  | cons t rest ih =>
    rw [List.nodup_cons] at hts
    unfold recordThresholds
    by_cases h : pctUsed ≥ t ∧ t ∉ existing
    · rw [if_pos h]
      have htnotin : t ∉ (st.alerts budget.id).map (fun a => a.threshold) := by
        intro hmem
        rcases hcur t hmem with hin | hnin
        · exact h.2 hin
        · exact hnin (List.mem_cons_self _ _)
      apply ih
      · exact hts.2
      · intro i
        by_cases hi : i = budget.id
        · subst hi
          simp only [addAlert, Function.update_same, List.map_append]
          refine (hall budget.id).append (List.nodup_singleton _) ?_
          intro x hx hx'
          rcases List.mem_singleton.mp hx' with rfl
          exact htnotin hx
        · simpa [addAlert, Function.update_noteq hi] using hall i
      · intro t' ht'
        simp only [addAlert, Function.update_same, List.map_append] at ht'
        rcases List.mem_append.mp ht' with hold | hnew
        · rcases hcur t' hold with hin | hnin
          · exact Or.inl hin
          · exact Or.inr (fun hr => hnin (List.mem_cons_of_mem _ hr))
        · rcases List.mem_singleton.mp hnew with rfl
          exact Or.inr hts.1
    · rw [if_neg h]
      exact ih _ hts.2 hall
        (fun t' ht' => (hcur t' ht').imp id (fun hn hr => hn (List.mem_cons_of_mem _ hr)))

theorem recordCostLoop_nodup (storage : InMemoryCostStorage) (now : Int)
    (bs : List BudgetConfig) (st : ManagerState)
    (hbs : ∀ b ∈ bs, b.alertThresholds.Nodup)
    (hall : ∀ i, ((st.alerts i).map (fun a => a.threshold)).Nodup) :
    ∀ i, (((recordCostLoop storage now bs st).alerts i).map (fun a => a.threshold)).Nodup := by
  induction bs generalizing st with
  | nil => exact hall
  | cons budget rest ih =>
    have hrest : ∀ b ∈ rest, b.alertThresholds.Nodup :=
      fun b hb => hbs b (List.mem_cons_of_mem _ hb)
    unfold recordCostLoop
    by_cases he : budget.enabled = false
    · rw [if_pos he]
      exact ih st hrest hall
    · rw [if_neg he]
      cases hgs : getBudgetStatus st storage now budget.id with
      | none => exact ih st hrest hall
      | some status =>
        simp only
        apply ih _ hrest
        exact recordThresholds_nodup budget status.percentageUsed status.currentSpending
          ((getAlerts st budget.id).map (fun a => a.threshold)) now budget.alertThresholds st
          (hbs budget (List.mem_cons_self _ _)) hall (fun t' ht' => Or.inl ht')

/-- **C1 amended.** Within one continuous accounting period, `recordCost`
never duplicates an alert for a (budget, threshold) pair: provided every
budget's threshold list is duplicate-free and every per-budget alert list
carries pairwise-distinct thresholds, the same holds after `recordCost`
(each reached threshold without an alert gains exactly one). `checkBudget`,
by contrast, does not consult the existing alert set and can emit duplicate
alerts for the same pair (see the counterexample). -/
theorem recordCost_no_duplicate_alerts
    (st : ManagerState) (storage : InMemoryCostStorage) (now : Int) (record : CostRecord)
    (hbs : ∀ b ∈ st.budgets, b.alertThresholds.Nodup)
    (hall : ∀ i, ((st.alerts i).map (fun a => a.threshold)).Nodup) :
    ∀ i, (((recordCost st storage now record).alerts i).map (fun a => a.threshold)).Nodup := by
  unfold recordCost
  exact recordCostLoop_nodup storage now _ st
    (fun b hb => hbs b (mem_getRelevantBudgets hb).1) hall

/-- Closed witness for the amended C1: a budget with thresholds 50 and 100
that already fired 50; after `recordCost` the alert thresholds for the
budget remain pairwise distinct. -/
theorem recordCost_no_duplicate_alerts_witness :
    ((((recordCost
        ⟨[⟨0, "b", 100, Period.total, [50, 100], BudgetAction.alert, none, true, 0, 0⟩],
          Function.update (fun _ => []) 0 [⟨5, 0, 50, 60, 100, "info", 1, false⟩], 6⟩
        ⟨[(3, ⟨3, "r", "a1", "m", ModelProvider.openai, ⟨1, 1, 2, none, none⟩, 120,
          ⟨120, 0, none, none⟩, 4⟩)]⟩ 10
        ⟨3, "r", "a1", "m", ModelProvider.openai, ⟨1, 1, 2, none, none⟩, 120,
          ⟨120, 0, none, none⟩, 4⟩).alerts 0).map (fun a => a.threshold)).Nodup) := by
  apply recordCost_no_duplicate_alerts
  · intro b hb
    rcases List.mem_singleton.mp hb with rfl
    norm_num [List.nodup_cons]
  · intro i
    rcases eq_or_ne i 0 with h | h
    · subst h
      simp [List.nodup_cons]
    · simp [Function.update_noteq h]

end AgentGuard
